import Mathlib

/-!
Verification of the data path of the `tf-tut` notebooks
(`celeba_tutorial.ipynb` and `split_tutorial.ipynb`).

Shallow embedding conventions:
* Python `str` values are modelled as `List Char` (`PyStr`), with the string
  operations the notebooks use (`split`, `int(...)`) defined below with the
  semantics of their Python counterparts.
* A serialized TFRecord example (`tf.train.Example` with fields
  `image_raw : bytes` and `label : int64 list`) is modelled as the structure
  `Example` holding the raw byte list and the integer label list.
* Tensors are modelled as nested lists; `float32` arithmetic is modelled over
  `ℚ` (the spec states the exact affine rescaling law, which is what we check).
* File-system reads (`os.listdir`, reading the attribute file) are modelled as
  `Option`-valued inputs: `none` models the unhandled abrupt failure raised by
  the underlying OS call when the directory or file is missing.
* `tf.data` randomness (`dataset.shuffle`) and `sklearn.train_test_split` are
  modelled as function parameters; theorems assume only that the shuffle is a
  permutation (or length preserving), which is all the library guarantees.
-/

/-- Python `str`, modelled as its list of characters. -/
abbrev PyStr := List Char

/-- One step of Python `str.split(sep)` for a non-empty separator, with
explicit fuel (one unit per emitted part; `s.length + 1` always suffices). -/
def splitFuel (sep : PyStr) : Nat → PyStr → PyStr → List PyStr
  | 0, acc, rest => [acc.reverse ++ rest]
  | _ + 1, acc, [] => [acc.reverse]
  | fuel + 1, acc, c :: rest =>
    if sep.isPrefixOf (c :: rest) then
      acc.reverse :: splitFuel sep fuel [] ((c :: rest).drop sep.length)
    else
      splitFuel sep fuel (c :: acc) rest

/-- Python `s.split(sep)` (non-empty separator). -/
def pySplit (s sep : PyStr) : List PyStr :=
  splitFuel sep (s.length + 1) [] s

/-- Digits of a Python decimal literal, or `none` when some character is not
a digit (Python `int(...)` raises `ValueError` there). -/
def digitsToNat (ds : List Char) : Option Nat :=
  if ds.isEmpty then none
  else ds.foldl (fun acc c =>
    acc.bind (fun a => if c.isDigit then some (a * 10 + (c.toNat - 48)) else none)) (some 0)

/-- Python `int(s)` on a whitespace-free token: optional sign followed by a
non-empty digit string; `none` models the `ValueError` raised otherwise. -/
def pyInt (s : PyStr) : Option Int :=
  match s with
  | [] => none
  | '-' :: ds => (digitsToNat ds).map (fun n => -(n : Int))
  | '+' :: ds => (digitsToNat ds).map (fun n => (n : Int))
  | ds => (digitsToNat ds).map (fun n => (n : Int))

/-- Python-style option traversal of a loop body over a list: the first
iteration that raises (returns `none`) aborts the whole loop. -/
def traverseOption (f : α → Option β) : List α → Option (List β)
  | [] => some []
  | a :: t =>
    match f a with
    | none => none
    | some b =>
      match traverseOption f t with
      | none => none
      | some bs => some (b :: bs)

/-- The separator `".jpg"` used by `read_labeled_image_list`. -/
def jpgSep : PyStr := ['.', 'j', 'p', 'g']

/-- The separator `" "` used by `read_labeled_image_list`. -/
def spaceSep : PyStr := [' ']

/-- The per-line label derivation of `read_labeled_image_list`
(celeba_tutorial.ipynb cell 4 / split_tutorial.ipynb cell 4):

    lbl_str = fname_and_lbl.split(".jpg")[1]
    lbl_str_split = lbl_str.split(" ")
    all_labels = [int(label) for label in lbl_str_split if label is not ""]
    is_male = all_labels[20] == 1
    labels.append([int(is_male), int(not is_male)])

`none` models each of the abrupt failures: missing `".jpg"` (IndexError on
`[1]`), a non-integer field (ValueError in `int`), or fewer than 21 fields
(IndexError on `all_labels[20]`). -/
def derive_label (fname_and_lbl : PyStr) : Option (List Int) := do
  let lbl_str ← (pySplit fname_and_lbl jpgSep).get? 1
  let lbl_str_split := pySplit lbl_str spaceSep
  let all_labels ← traverseOption pyInt (lbl_str_split.filter (fun t => !t.isEmpty))
  let a20 ← all_labels.get? 20
  let is_male := a20 == 1
  some [if is_male then 1 else 0, if is_male then 0 else 1]

/-- `read_labeled_image_list(img_dir, label_txt_path)`.  The two disk reads
are modelled as `Option` inputs: `listdir` is the result of
`os.listdir(img_dir)` and `label_txt_lines` the result of
`f.read().splitlines()`; `none` models the unhandled OS error raised when the
directory or file is missing. -/
def read_labeled_image_list (img_dir : PyStr) (listdir : Option (List PyStr))
    (label_txt_lines : Option (List PyStr)) :
    Option (List PyStr × List (List Int)) := do
  let img_filenames ← listdir
  let abs_img_paths := img_filenames.map (fun img_f => img_dir ++ ('/' :: img_f))
  let img_fnames_and_lbls ← label_txt_lines
  let labels ← traverseOption derive_label (img_fnames_and_lbls.drop 2)
  some (abs_img_paths, labels)

/-- A `uint8` image tensor of rank 3 (height × width × channels). -/
abbrev Image8 := List (List (List Nat))

/-- `resized_im.tostring()`: row-major flattening of a rank-3 `uint8` array
into its raw byte list. -/
def tostring (img : Image8) : List Nat :=
  img.flatten.flatten

/-- A serialized record, `tf.train.Example` with the two-field schema
`{image_raw: bytes, label: int64 list}` used by `make_tfr`. -/
structure Example where
  image_raw : List Nat
  label : List Int
deriving DecidableEq

/-- The per-sample serialization step of `make_tfr`: flatten the resized
image to raw bytes and wrap image and label in the two-field record. -/
def make_example (resized_im : Image8) (label : List Int) : Example :=
  { image_raw := tostring resized_im, label := label }

/-- `make_tfr(all_image_paths, all_labels, tfr_file)`: the list of records
written to the file, in order.  `imread` and `resize` (scipy / cv2) are
modelled as parameters; `resize` receives the target size `(128, 128)` as in
the source.  The pairing is Python's `zip`, which stops at the shorter list. -/
def make_tfr {Raw : Type} (imread : PyStr → Raw)
    (resize : Raw → Nat × Nat → Image8)
    (all_image_paths : List PyStr) (all_labels : List (List Int)) : List Example :=
  (all_image_paths.zip all_labels).map (fun pl =>
    let disk_im := imread pl.1
    let resized_im := resize disk_im (128, 128)
    make_example resized_im pl.2)

/-- `parse_protocol_buffer(example_proto)` inside `input_pipeline`:
`tf.parse_single_example` with `image_raw : FixedLenFeature((), string)` and
`label : FixedLenFeature((2), int64)`; parsing fails unless the stored label
has exactly 2 entries. -/
def parse_protocol_buffer (example_proto : Example) : Option (List Nat × List Int) :=
  if example_proto.label.length = 2 then
    some (example_proto.image_raw, example_proto.label)
  else
    none

/-- `tf.decode_raw(image_string, tf.uint8)`: reinterpret the byte string as a
flat `uint8` tensor (identity on our byte-list model). -/
def decode_raw (image_string : List Nat) : List Nat :=
  image_string

/-- Chunking with explicit fuel (one unit per emitted chunk;
`xs.length` always suffices for a positive chunk size). -/
def chunkFuel (k : Nat) : Nat → List α → List (List α)
  | 0, _ => []
  | _ + 1, [] => []
  | fuel + 1, x :: rest => (x :: rest).take k :: chunkFuel k fuel ((x :: rest).drop k)

/-- Split a list into consecutive chunks of size `k` (the last chunk is
shorter when `k` does not divide the length). -/
def chunkList (k : Nat) (xs : List α) : List (List α) :=
  chunkFuel k xs.length xs

/-- `tf.reshape(image_decoded, (128, 128, 3))`: fails unless the flat tensor
has exactly `128 * 128 * 3` entries, and otherwise rebuilds the rank-3
row-major array. -/
def reshape_image (image_decoded : List Nat) : Option Image8 :=
  if image_decoded.length = 128 * 128 * 3 then
    some (chunkList 128 (chunkList 3 image_decoded))
  else
    none

/-- `tf.reshape(label, [2])`: fails unless the label has exactly 2 entries. -/
def reshape_label (label : List Int) : Option (List Int) :=
  if label.length = 2 then some label else none

/-- Elementwise map over a rank-3 tensor. -/
def map3 (f : α → β) (img : List (List (List α))) : List (List (List β)) :=
  img.map (fun row => row.map (fun px => px.map f))

/-- A `float32` image tensor, modelled over `ℚ`. -/
abbrev QImage := List (List (List ℚ))

/-- One decoded element of the pipeline: `(image, label)` after decoding. -/
abbrev PipeElem := QImage × List ℚ

/-- `convert_parsed_proto_to_input(image_string, label)` inside
`input_pipeline`: decode the byte string as `uint8`, reshape to
`128 × 128 × 3`, cast to float, rescale by `* (2/255) - 1`; reshape the label
to `[2]` and cast it to float. -/
def convert_parsed_proto_to_input (image_string : List Nat) (label : List Int) :
    Option PipeElem := do
  let image_decoded := decode_raw image_string
  let image_resized ← reshape_image image_decoded
  let image := map3 (fun v : Nat => (v : ℚ)) image_resized
  let label2 ← reshape_label label
  let labelq := label2.map (fun z : Int => (z : ℚ))
  some (map3 (fun x => x * (2 / 255) - 1) image, labelq)

/-- `dataset.repeat(count)`: the stream repeated `count` times. -/
def replicateJoin (count : Nat) (xs : List α) : List α :=
  (List.replicate count xs).flatten

/-- The two `dataset.map` stages of `input_pipeline` applied to the record
list: parse each record, then decode each parsed record.  A failure of either
stage anywhere aborts the pipeline (a runtime error in TensorFlow). -/
def mapped_elements (records : List Example) : Option (List PipeElem) := do
  let parsed ← traverseOption parse_protocol_buffer records
  traverseOption (fun pl => convert_parsed_proto_to_input pl.1 pl.2) parsed

/-- The element stream `input_pipeline` feeds into `dataset.batch`:
the (shuffled) element stream repeated `batch_size * epochs` times
(`dataset.repeat(batch_size*epochs)`). -/
def pre_batch_stream (batch_size epochs : Nat) (shuffled : List PipeElem) :
    List PipeElem :=
  replicateJoin (batch_size * epochs) shuffled

/-- `input_pipeline(batch_size, epochs, tfr_file)`: map/parse, map/decode,
shuffle (modelled by the parameter `shuffleF`, an arbitrary reordering
supplied by `dataset.shuffle(buffer_size=1000)`), `repeat(batch_size*epochs)`,
`batch(batch_size)`, `repeat(epochs)`.  Returns the list of batches. -/
def input_pipeline (batch_size epochs : Nat) (records : List Example)
    (shuffleF : List PipeElem → List PipeElem) : Option (List (List PipeElem)) := do
  let converted ← mapped_elements records
  let shuffled := shuffleF converted
  let batched := chunkList batch_size (pre_batch_stream batch_size epochs shuffled)
  some (replicateJoin epochs batched)

/-- TensorFlow's process-global variable store, modelled as the list of fully
qualified variable names registered so far (most recent first). -/
abbrev VarStore := List String

/-- `tf.get_variable(name, ...)` inside `tf.variable_scope(scope)` with the
default `reuse=None`: registering a name that already exists raises a
`ValueError` naming the variable; otherwise the variable is created. -/
def get_variable (scope name : String) (store : VarStore) : Except String VarStore :=
  let full_name := scope ++ "/" ++ name
  if full_name ∈ store then Except.error full_name else Except.ok (full_name :: store)

/-- The variable declarations performed by one call of `conv` (celeba_tutorial
cell 11 / split_tutorial cell 12) inside the caller's variable scope: a
`"kernel"` and a `"bias"` parameter. -/
def conv_variables (scope : String) (store : VarStore) : Except String VarStore := do
  let store ← get_variable scope "kernel" store
  get_variable scope "bias" store

/-- The variable declarations performed by one call of `model`: four
convolution layers, each inside its own `tf.variable_scope`, then the fully
connected layer's weights and bias. -/
def model_variables (store : VarStore) : Except String VarStore := do
  let s1 ← conv_variables "layer1" store
  let s2 ← conv_variables "layer2" s1
  let s3 ← conv_variables "layer3" s2
  let s4 ← conv_variables "layer4" s3
  let s5 ← get_variable "fully_connected" "weights" s4
  get_variable "fully_connected" "bias" s5

/-- A file system holding record files, modelled as a map from path to the
record list the file contains (`none` = the file does not exist). -/
abbrev FS := String → Option (List Example)

/-- `os.path.isfile(path)`. -/
def isfile (fs : FS) (path : String) : Bool :=
  (fs path).isSome

/-- Writing a record file: the file at `path` is created or overwritten, all
other paths are untouched. -/
def fs_write (fs : FS) (path : String) (contents : List Example) : FS :=
  fun q => if q = path then some contents else fs q

/-- The record-file path of celeba_tutorial.ipynb cell 7. -/
def TFR_FILE : String := "/media/dylan/DATA/tfr/celeba_tutorial"

/-- The train record-file path of split_tutorial.ipynb cell 8. -/
def TFR_TRAIN : String := "/media/dylan/DATA/tfr/celeba_train"

/-- The test record-file path of split_tutorial.ipynb cell 8. -/
def TFR_TEST : String := "/media/dylan/DATA/tfr/celeba_test"

/-- The writer guard cell of celeba_tutorial.ipynb (cell 7):

    if write_tfr or not os.path.isfile(TFR_FILE):
        all_image_paths, all_labels = read_labeled_image_list()
        make_tfr(all_image_paths, all_labels, tfr_file=TFR_FILE)

Returns whether the write path ran, and the resulting file system (`none`
models the abrupt failure of `read_labeled_image_list`). -/
def write_guard_cell {Raw : Type} (write_tfr : Bool) (fs : FS) (img_dir : PyStr)
    (listdir : Option (List PyStr)) (label_txt_lines : Option (List PyStr))
    (imread : PyStr → Raw) (resize : Raw → Nat × Nat → Image8) : Bool × Option FS :=
  if write_tfr || !(isfile fs TFR_FILE) then
    (true,
      (read_labeled_image_list img_dir listdir label_txt_lines).map (fun pl =>
        fs_write fs TFR_FILE (make_tfr imread resize pl.1 pl.2)))
  else
    (false, some fs)

/-- The writer guard cell of split_tutorial.ipynb (cell 8): additionally
splits the sample list with `sklearn.train_test_split` (modelled by the
parameter `splitF`, the library's randomized split) and writes the train and
test record files. -/
def write_guard_cell_split {Raw : Type} (write_tfr : Bool) (fs : FS) (img_dir : PyStr)
    (listdir : Option (List PyStr)) (label_txt_lines : Option (List PyStr))
    (imread : PyStr → Raw) (resize : Raw → Nat × Nat → Image8)
    (splitF : List PyStr → List (List Int) →
      List PyStr × List PyStr × List (List Int) × List (List Int)) : Bool × Option FS :=
  if write_tfr || !(isfile fs TFR_TRAIN) || !(isfile fs TFR_TEST) then
    (true,
      (read_labeled_image_list img_dir listdir label_txt_lines).map (fun pl =>
        let split4 := splitF pl.1 pl.2
        let tr_paths := split4.1
        let te_paths := split4.2.1
        let tr_lbls := split4.2.2.1
        let te_lbls := split4.2.2.2
        fs_write (fs_write fs TFR_TRAIN (make_tfr imread resize tr_paths tr_lbls))
          TFR_TEST (make_tfr imread resize te_paths te_lbls)))
  else
    (false, some fs)

/-- The two data sources of split_tutorial.ipynb's graph: the train iterator
and the held-out test iterator. -/
inductive DataSource where
  | train : DataSource
  | test : DataSource
deriving DecidableEq

/-- The `tf.cond(is_training, ...)` data-source switch named `choose_data`
in split_tutorial.ipynb cell 19. -/
def choose_data (is_training : Bool) : DataSource :=
  if is_training then DataSource.train else DataSource.test

/-- A feed dictionary of split_tutorial.ipynb cell 22. -/
structure FeedDict where
  keep_prob : ℚ
  is_training : Bool
deriving DecidableEq

/-- `train_dict = {keep_prob: 0.5, is_training: True}`. -/
def train_dict : FeedDict :=
  { keep_prob := 1 / 2, is_training := true }

/-- `test_dict = {keep_prob: 1., is_training: False}`. -/
def test_dict : FeedDict :=
  { keep_prob := 1, is_training := false }

/-- What one iteration of split_tutorial.ipynb's training loop does:
whether `train_op` was among the fetches (a parameter update), whether the
evaluation-only fetch list was run, which feed dictionary was used, and
whether the step printed its loss. -/
structure StepTrace where
  ran_train_op : Bool
  ran_eval_only : Bool
  feed : FeedDict
  printed : Bool
deriving DecidableEq

/-- One iteration of the training loop of split_tutorial.ipynb cell 22:

    check_in = epoch % 100 == 0
    test = epoch % 500 == 0
    if not test:
        ... sess.run([loss_op, accuracy_op, train_op, summary_op], train_dict)
    elif test:
        ... sess.run([loss_op, accuracy_op, summary_op], test_dict)
    if check_in:
        print(...)
-/
def loop_body (epoch : Nat) : StepTrace :=
  let check_in := epoch % 100 == 0
  let test := epoch % 500 == 0
  if !test then
    { ran_train_op := true, ran_eval_only := false, feed := train_dict, printed := check_in }
  else
    { ran_train_op := false, ran_eval_only := true, feed := test_dict, printed := check_in }

/-- The whole training loop, `for epoch in range(iterations + 1)`, as the
trace of its iterations. -/
def training_loop (iterations : Nat) : List StepTrace :=
  (List.range (iterations + 1)).map loop_body

/-! ### Helper lemmas about the list combinators of the embedding -/

theorem traverseOption_eq_none_of_mem {f : α → Option β} {xs : List α} {x : α}
    (hx : x ∈ xs) (hfx : f x = none) : traverseOption f xs = none := by
  induction xs with
  | nil => cases hx
  | cons a t ih =>
    rcases List.mem_cons.mp hx with h | h
    · subst h
      simp [traverseOption, hfx]
    · cases hfa : f a with
      | none => simp [traverseOption, hfa]
      | some b => simp [traverseOption, hfa, ih h]

theorem traverseOption_isSome {f : α → Option β} {xs : List α}
    (h : ∀ x ∈ xs, (f x).isSome = true) :
    ∃ ys, traverseOption f xs = some ys ∧ ys.length = xs.length ∧
      ∀ y ∈ ys, ∃ x ∈ xs, f x = some y := by
  induction xs with
  | nil => exact ⟨[], rfl, rfl, by simp⟩
  | cons a t ih =>
    have ha : (f a).isSome = true := h a (by simp)
    obtain ⟨b, hb⟩ := Option.isSome_iff_exists.mp ha
    obtain ⟨ys, hys, hlen, hmem⟩ := ih (fun x hx => h x (by simp [hx]))
    refine ⟨b :: ys, ?_, by simp [hlen], ?_⟩
    · simp [traverseOption, hb, hys]
    · intro y hy
      rcases List.mem_cons.mp hy with h' | h'
      · exact ⟨a, by simp, h' ▸ hb⟩
      · obtain ⟨x, hx, hfx⟩ := hmem y h'
        exact ⟨x, by simp [hx], hfx⟩

theorem flatten_length_const {xss : List (List α)} {k : Nat}
    (h : ∀ l ∈ xss, l.length = k) : xss.flatten.length = xss.length * k := by
  induction xss with
  | nil => simp
  | cons l rest ih =>
    have hl : l.length = k := h l (by simp)
    have := ih (fun x hx => h x (by simp [hx]))
    simp only [List.flatten_cons, List.length_append, List.length_cons, this, hl]
    ring

theorem chunkFuel_flatten {α : Type _} {k : Nat} (hk : 0 < k) :
    ∀ (xss : List (List α)) (fuel : Nat), (∀ l ∈ xss, l.length = k) →
      xss.length ≤ fuel → chunkFuel k fuel xss.flatten = xss := by
  intro xss
  induction xss with
  | nil =>
    intro fuel _ _
    cases fuel <;> simp [chunkFuel]
  | cons l rest ih =>
    intro fuel hlen hfuel
    cases fuel with
    | zero => simp at hfuel
    | succ f =>
      have hl : l.length = k := hlen l (by simp)
      have hlne : l ≠ [] := by
        intro h
        rw [h] at hl
        simp at hl
        omega
      obtain ⟨c, cs, rfl⟩ := List.exists_cons_of_ne_nil hlne
      have hstep : (c :: cs) :: rest = ((c :: cs) ++ rest.flatten).take k ::
          chunkFuel k f (((c :: cs) ++ rest.flatten).drop k) := by
        rw [List.take_left' hl, List.drop_left' hl,
          ih f (fun x hx => hlen x (by simp [hx])) (by simpa using hfuel)]
      calc chunkFuel k (f + 1) (((c :: cs) :: rest).flatten)
          = ((c :: cs) ++ rest.flatten).take k ::
              chunkFuel k f (((c :: cs) ++ rest.flatten).drop k) := by
            simp only [List.flatten_cons, List.cons_append, chunkFuel, List.append_eq]
        _ = (c :: cs) :: rest := hstep.symm

theorem chunkList_flatten {α : Type _} {k : Nat} (hk : 0 < k)
    (xss : List (List α)) (h : ∀ l ∈ xss, l.length = k) :
    chunkList k xss.flatten = xss := by
  have hfl : xss.flatten.length = xss.length * k := flatten_length_const h
  have : xss.length ≤ xss.flatten.length := by
    rw [hfl]
    exact Nat.le_mul_of_pos_right _ hk
  exact chunkFuel_flatten hk xss xss.flatten.length h this

theorem chunkFuel_shape {α : Type _} {k : Nat} (hk : 0 < k) :
    ∀ (fuel : Nat) (xs : List α) (m : Nat), xs.length = k * m → xs.length ≤ fuel →
      (∀ l ∈ chunkFuel k fuel xs, l.length = k) ∧ (chunkFuel k fuel xs).length = m := by
  intro fuel
  induction fuel with
  | zero =>
    intro xs m hm hf
    have hxs : xs = [] := List.length_eq_zero.mp (Nat.le_zero.mp hf)
    subst hxs
    have : m = 0 := by
      have := hm.symm
      simp at this
      omega
    subst this
    exact ⟨by simp [chunkFuel], by simp [chunkFuel]⟩
  | succ f ih =>
    intro xs m hm hf
    cases xs with
    | nil =>
      have : m = 0 := by
        have := hm.symm
        simp at this
        omega
      subst this
      exact ⟨by simp [chunkFuel], by simp [chunkFuel]⟩
    | cons x rest =>
      have hpos : 0 < (x :: rest).length := by simp
      have hmpos : 0 < m := by
        rcases Nat.eq_zero_or_pos m with h0 | h0
        · subst h0
          simp at hm
        · exact h0
      have hkle : k ≤ (x :: rest).length := by
        rw [hm]
        calc k = k * 1 := (Nat.mul_one k).symm
          _ ≤ k * m := Nat.mul_le_mul_left k hmpos
      have htake : ((x :: rest).take k).length = k := by
        rw [List.length_take]
        omega
      have hdroplen : ((x :: rest).drop k).length = k * (m - 1) := by
        rw [List.length_drop, hm]
        cases m with
        | zero => omega
        | succ m' =>
          simp only [Nat.succ_sub_one, Nat.mul_succ]
          omega
      have hdrople : ((x :: rest).drop k).length ≤ f := by
        rw [List.length_drop]
        omega
      obtain ⟨hall, hcount⟩ := ih ((x :: rest).drop k) (m - 1) hdroplen hdrople
      constructor
      · intro l hl
        simp only [chunkFuel, List.mem_cons] at hl
        rcases hl with rfl | hl
        · exact htake
        · exact hall l hl
      · simp only [chunkFuel, List.length_cons, hcount]
        omega

theorem chunkList_shape {α : Type _} {k : Nat} (hk : 0 < k) (xs : List α) (m : Nat)
    (hm : xs.length = k * m) :
    (∀ l ∈ chunkList k xs, l.length = k) ∧ (chunkList k xs).length = m :=
  chunkFuel_shape hk xs.length xs m hm (Nat.le_refl _)

theorem chunkFuel_subset {α : Type _} {k : Nat} :
    ∀ (fuel : Nat) (xs l : List α) (a : α), l ∈ chunkFuel k fuel xs → a ∈ l → a ∈ xs := by
  intro fuel
  induction fuel with
  | zero =>
    intro xs l a hl
    simp [chunkFuel] at hl
  | succ f ih =>
    intro xs l a hl ha
    cases xs with
    | nil => simp [chunkFuel] at hl
    | cons x rest =>
      simp only [chunkFuel, List.mem_cons] at hl
      rcases hl with rfl | hl
      · exact List.take_subset k (x :: rest) ha
      · exact List.drop_subset k (x :: rest) (ih ((x :: rest).drop k) l a hl ha)

theorem chunkList_subset {α : Type _} {k : Nat} {xs l : List α} {a : α}
    (hl : l ∈ chunkList k xs) (ha : a ∈ l) : a ∈ xs :=
  chunkFuel_subset xs.length xs l a hl ha

theorem replicateJoin_succ (n : Nat) (xs : List α) :
    replicateJoin (n + 1) xs = xs ++ replicateJoin n xs := by
  simp [replicateJoin, List.replicate_succ]

theorem replicateJoin_length (n : Nat) (xs : List α) :
    (replicateJoin n xs).length = n * xs.length := by
  induction n with
  | zero => simp [replicateJoin]
  | succ m ih =>
    rw [replicateJoin_succ, List.length_append, ih]
    ring

theorem mem_replicateJoin {n : Nat} {xs : List α} {x : α}
    (h : x ∈ replicateJoin n xs) : x ∈ xs := by
  induction n with
  | zero => simp [replicateJoin] at h
  | succ m ih =>
    rw [replicateJoin_succ, List.mem_append] at h
    rcases h with h | h
    · exact h
    · exact ih h

/-! ### Helper lemmas about the embedded pipeline functions -/

theorem parse_protocol_buffer_eq_some {ex : Example} {p : List Nat × List Int}
    (h : parse_protocol_buffer ex = some p) :
    ex.label.length = 2 ∧ p = (ex.image_raw, ex.label) := by
  by_cases h2 : ex.label.length = 2
  · refine ⟨h2, ?_⟩
    rw [parse_protocol_buffer, if_pos h2] at h
    exact (Option.some_injective _ h).symm
  · rw [parse_protocol_buffer, if_neg h2] at h
    cases h

theorem parse_protocol_buffer_of_length {ex : Example} (h : ex.label.length = 2) :
    parse_protocol_buffer ex = some (ex.image_raw, ex.label) := by
  rw [parse_protocol_buffer, if_pos h]

theorem convert_parsed_proto_to_input_eq {image_string : List Nat} {label : List Int}
    (h1 : image_string.length = 128 * 128 * 3) (h2 : label.length = 2) :
    convert_parsed_proto_to_input image_string label =
      some (map3 (fun x => x * (2 / 255) - 1)
              (map3 (fun v : Nat => (v : ℚ)) (chunkList 128 (chunkList 3 image_string))),
            label.map (fun z : Int => (z : ℚ))) := by
  rw [convert_parsed_proto_to_input]
  have hr : reshape_image (decode_raw image_string) =
      some (chunkList 128 (chunkList 3 image_string)) := by
    rw [reshape_image, decode_raw, if_pos h1]
  have hl : reshape_label label = some label := by
    rw [reshape_label, if_pos h2]
  rw [hr]
  simp only [Option.bind_eq_bind, Option.some_bind, hl]

theorem get_variable_eq_ok {scope name : String} {store store' : VarStore}
    (h : get_variable scope name store = Except.ok store') :
    store' = (scope ++ "/" ++ name) :: store ∧ (scope ++ "/" ++ name) ∉ store := by
  simp only [get_variable] at h
  split at h
  · cases h
  · cases h
    constructor
    · rfl
    · assumption

theorem get_variable_error_of_mem {scope name : String} {store : VarStore}
    (h : (scope ++ "/" ++ name) ∈ store) :
    get_variable scope name store = Except.error (scope ++ "/" ++ name) := by
  simp only [get_variable]
  rw [if_pos h]

theorem exceptBind_ok {ε α β : Type _} (a : α) (f : α → Except ε β) :
    (Except.ok a : Except ε α) >>= f = f a := rfl

theorem exceptBind_error {ε α β : Type _} (e : ε) (f : α → Except ε β) :
    (Except.error e : Except ε α) >>= f = Except.error e := rfl

theorem conv_variables_eq_ok {scope : String} {store store' : VarStore}
    (h : conv_variables scope store = Except.ok store') :
    store' = (scope ++ "/" ++ "bias") :: (scope ++ "/" ++ "kernel") :: store := by
  rw [conv_variables] at h
  cases hk : get_variable scope "kernel" store with
  | error e =>
    rw [hk, exceptBind_error] at h
    cases h
  | ok s1 =>
    rw [hk, exceptBind_ok] at h
    obtain ⟨hs1, -⟩ := get_variable_eq_ok hk
    obtain ⟨hs2, -⟩ := get_variable_eq_ok h
    rw [hs2, hs1]

theorem model_variables_mem {store store' : VarStore}
    (h : model_variables store = Except.ok store') :
    ("layer1" ++ "/" ++ "kernel") ∈ store' := by
  rw [model_variables] at h
  cases h1 : conv_variables "layer1" store with
  | error e =>
    rw [h1, exceptBind_error] at h
    cases h
  | ok s1 =>
    rw [h1, exceptBind_ok] at h
    have hs1 : ("layer1" ++ "/" ++ "kernel") ∈ s1 := by
      rw [conv_variables_eq_ok h1]
      exact List.mem_cons_of_mem _ (List.mem_cons_self _ _)
    cases h2 : conv_variables "layer2" s1 with
    | error e =>
      rw [h2, exceptBind_error] at h
      cases h
    | ok s2 =>
      rw [h2, exceptBind_ok] at h
      have hs2 : ("layer1" ++ "/" ++ "kernel") ∈ s2 := by
        rw [conv_variables_eq_ok h2]
        exact List.mem_cons_of_mem _ (List.mem_cons_of_mem _ hs1)
      cases h3 : conv_variables "layer3" s2 with
      | error e =>
        rw [h3, exceptBind_error] at h
        cases h
      | ok s3 =>
        rw [h3, exceptBind_ok] at h
        have hs3 : ("layer1" ++ "/" ++ "kernel") ∈ s3 := by
          rw [conv_variables_eq_ok h3]
          exact List.mem_cons_of_mem _ (List.mem_cons_of_mem _ hs2)
        cases h4 : conv_variables "layer4" s3 with
        | error e =>
          rw [h4, exceptBind_error] at h
          cases h
        | ok s4 =>
          rw [h4, exceptBind_ok] at h
          have hs4 : ("layer1" ++ "/" ++ "kernel") ∈ s4 := by
            rw [conv_variables_eq_ok h4]
            exact List.mem_cons_of_mem _ (List.mem_cons_of_mem _ hs3)
          cases h5 : get_variable "fully_connected" "weights" s4 with
          | error e =>
            rw [h5, exceptBind_error] at h
            cases h
          | ok s5 =>
            rw [h5, exceptBind_ok] at h
            have hs5 : ("layer1" ++ "/" ++ "kernel") ∈ s5 := by
              rw [(get_variable_eq_ok h5).1]
              exact List.mem_cons_of_mem _ hs4
            rw [(get_variable_eq_ok h).1]
            exact List.mem_cons_of_mem _ hs5

theorem derive_label_one_hot {row : PyStr} {lbl : List Int}
    (hd : derive_label row = some lbl) : lbl = [1, 0] ∨ lbl = [0, 1] := by
  simp only [derive_label, Option.bind_eq_bind, Option.bind_eq_some] at hd
  obtain ⟨lbl_str, -, all_labels, -, a20, -, hfinal⟩ := hd
  cases hb : (a20 == 1) with
  | true =>
    left
    simp [hb] at hfinal
    exact hfinal.symm
  | false =>
    right
    simp [hb] at hfinal
    exact hfinal.symm

theorem derive_label_eq_none {row : PyStr}
    (h : (pySplit row jpgSep)[1]? = none ∨
      ∃ lbl_str, (pySplit row jpgSep)[1]? = some lbl_str ∧
        (traverseOption pyInt ((pySplit lbl_str spaceSep).filter (fun t => !t.isEmpty)) = none ∨
         ∃ flds, traverseOption pyInt
             ((pySplit lbl_str spaceSep).filter (fun t => !t.isEmpty)) = some flds ∧
           flds.length < 21)) :
    derive_label row = none := by
  rcases h with h | ⟨lbl_str, hs, h | ⟨flds, hf, hlen⟩⟩
  · simp [derive_label, h]
  · simp [derive_label, hs, h]
  · have h20 : flds[20]? = none := List.getElem?_eq_none (by omega)
    simp [derive_label, hs, hf, h20]

theorem mapped_elements_isSome {records : List Example}
    (hwf : ∀ r ∈ records, r.image_raw.length = 128 * 128 * 3 ∧ r.label.length = 2) :
    ∃ conv, mapped_elements records = some conv ∧ conv.length = records.length := by
  have hparse : ∀ r ∈ records, (parse_protocol_buffer r).isSome = true := by
    intro r hr
    rw [parse_protocol_buffer_of_length (hwf r hr).2]
    rfl
  obtain ⟨parsed, hp, hplen, hpmem⟩ := traverseOption_isSome hparse
  have hconv : ∀ p ∈ parsed, (convert_parsed_proto_to_input p.1 p.2).isSome = true := by
    intro p hp'
    obtain ⟨r, hr, hpr⟩ := hpmem p hp'
    obtain ⟨h2, rfl⟩ := parse_protocol_buffer_eq_some hpr
    rw [convert_parsed_proto_to_input_eq (hwf r hr).1 h2]
    rfl
  obtain ⟨conv, hc, hclen, -⟩ := traverseOption_isSome hconv
  refine ⟨conv, ?_, by rw [hclen, hplen]⟩
  simp only [mapped_elements, Option.bind_eq_bind, hp, Option.some_bind, hc]

/-! ### The claims -/

/-- C1: serializing a 128×128×3 image byte array and a length-2 integer label
with `make_tfr`'s per-sample step (flatten to raw bytes, wrap in the two-field
record) and then deserializing through the pipeline's parse and decode steps
(parse the record, decode the bytes as `uint8`, reshape to 128×128×3)
reproduces the original pixel array bit-for-bit and the original label values
exactly (the parsed label is the stored one; the decode step merely casts it
to float, which is exact on these integers). -/
theorem C1_roundtrip (img : Image8) (label : List Int)
    (h1 : img.length = 128)
    (h2 : ∀ row ∈ img, row.length = 128)
    (h3 : ∀ row ∈ img, ∀ px ∈ row, px.length = 3)
    (h4 : ∀ row ∈ img, ∀ px ∈ row, ∀ v ∈ px, v < 256)
    (h5 : label.length = 2) :
    parse_protocol_buffer (make_example img label) = some (tostring img, label) ∧
    reshape_image (decode_raw (tostring img)) = some img ∧
    ∃ qimg, convert_parsed_proto_to_input (tostring img) label =
      some (qimg, label.map (fun z : Int => (z : ℚ))) := by
  have hpx : ∀ px ∈ img.flatten, px.length = 3 := by
    intro px hpx
    obtain ⟨row, hrow, hpxr⟩ := List.mem_flatten.mp hpx
    exact h3 row hrow px hpxr
  have hlen : (tostring img).length = 128 * 128 * 3 := by
    show img.flatten.flatten.length = 128 * 128 * 3
    rw [flatten_length_const hpx, flatten_length_const h2, h1]
  have hchunk3 : chunkList 3 img.flatten.flatten = img.flatten :=
    chunkList_flatten (by norm_num) img.flatten hpx
  have hchunk128 : chunkList 128 img.flatten = img :=
    chunkList_flatten (by norm_num) img h2
  have hresh : reshape_image (decode_raw (tostring img)) = some img := by
    show reshape_image (tostring img) = some img
    rw [reshape_image, if_pos hlen]
    show some (chunkList 128 (chunkList 3 img.flatten.flatten)) = some img
    rw [hchunk3, hchunk128]
  exact ⟨parse_protocol_buffer_of_length h5, hresh,
    ⟨_, convert_parsed_proto_to_input_eq hlen h5⟩⟩

/-- C1, witnessed at the all-zero 128×128×3 image and the label `[1, 0]`. -/
theorem C1_roundtrip_witness :
    (List.replicate 128 (List.replicate 128 (List.replicate 3 (0 : Nat)))).length = 128 ∧
    reshape_image (decode_raw (tostring
        (List.replicate 128 (List.replicate 128 (List.replicate 3 0))))) =
      some (List.replicate 128 (List.replicate 128 (List.replicate 3 0))) := by
  have h2 : ∀ row ∈ List.replicate 128 (List.replicate 128 (List.replicate 3 (0 : Nat))),
      row.length = 128 := by
    intro row hr
    rw [List.eq_of_mem_replicate hr]
    simp
  have h3 : ∀ row ∈ List.replicate 128 (List.replicate 128 (List.replicate 3 (0 : Nat))),
      ∀ px ∈ row, px.length = 3 := by
    intro row hr px hp
    rw [List.eq_of_mem_replicate hr] at hp
    rw [List.eq_of_mem_replicate hp]
    simp
  have h4 : ∀ row ∈ List.replicate 128 (List.replicate 128 (List.replicate 3 (0 : Nat))),
      ∀ px ∈ row, ∀ v ∈ px, v < 256 := by
    intro row hr px hp v hv
    rw [List.eq_of_mem_replicate hr] at hp
    rw [List.eq_of_mem_replicate hp] at hv
    rw [List.eq_of_mem_replicate hv]
    omega
  exact ⟨List.length_replicate 128 _,
    (C1_roundtrip (List.replicate 128 (List.replicate 128 (List.replicate 3 0))) [1, 0]
      (List.length_replicate 128 _) h2 h3 h4 (by decide)).2.1⟩

/-- C2: every label `read_labeled_image_list` derives from a valid attribute
row is exactly `[1, 0]` or `[0, 1]`, and this one-hot shape survives
serialization (the parsed record returns the label unchanged) and the input
pipeline's decode step (the emitted label tensor has length 2 and sums to
exactly 1). -/
theorem C2_one_hot (row : PyStr) (lbl : List Int) (img : Image8) (image_string : List Nat)
    (hd : derive_label row = some lbl)
    (hbs : image_string.length = 128 * 128 * 3) :
    (lbl = [1, 0] ∨ lbl = [0, 1]) ∧
    parse_protocol_buffer (make_example img lbl) = some (tostring img, lbl) ∧
    ∃ qimg qlbl, convert_parsed_proto_to_input image_string lbl = some (qimg, qlbl) ∧
      qlbl.length = 2 ∧ qlbl.sum = 1 := by
  have hone := derive_label_one_hot hd
  have hlen : lbl.length = 2 := by
    rcases hone with h | h <;> rw [h] <;> rfl
  refine ⟨hone, parse_protocol_buffer_of_length hlen,
    ⟨_, _, convert_parsed_proto_to_input_eq hbs hlen, ?_, ?_⟩⟩
  · rw [List.length_map]
    exact hlen
  · rcases hone with h | h <;> rw [h] <;> norm_num

/-- C2, witnessed at a well-formed attribute row whose 21st attribute is 1. -/
theorem C2_one_hot_witness :
    derive_label (String.toList "000001.jpg 1 1 1 1 1 1 1 1 1 1 1 1 1 1 1 1 1 1 1 1 1") =
      some [1, 0] ∧
    ([1, 0] = [(1 : Int), 0] ∨ [1, 0] = [(0 : Int), 1]) := by
  refine ⟨by decide, ?_⟩
  exact (C2_one_hot
    (String.toList "000001.jpg 1 1 1 1 1 1 1 1 1 1 1 1 1 1 1 1 1 1 1 1 1") [1, 0] []
    (List.replicate (128 * 128 * 3) 0) (by decide) (List.length_replicate _ _)).1

/-- C8: `read_labeled_image_list` fails abruptly (returns no value) whenever
the image directory listing or the label file is missing, or whenever some
non-header line of the attribute file is malformed: the line has no ".jpg"
occurrence (its split has no second part), some field after the filename is
not an integer, or there are fewer than 21 integer fields. -/
theorem C8_abrupt_failure (img_dir : PyStr) (listdir : Option (List PyStr))
    (label_txt_lines : Option (List PyStr))
    (h : listdir = none ∨ label_txt_lines = none ∨
      ∃ ls, label_txt_lines = some ls ∧ ∃ row ∈ ls.drop 2,
        ((pySplit row jpgSep)[1]? = none ∨
         ∃ lbl_str, (pySplit row jpgSep)[1]? = some lbl_str ∧
           (traverseOption pyInt
               ((pySplit lbl_str spaceSep).filter (fun t => !t.isEmpty)) = none ∨
            ∃ flds, traverseOption pyInt
                ((pySplit lbl_str spaceSep).filter (fun t => !t.isEmpty)) = some flds ∧
              flds.length < 21))) :
    read_labeled_image_list img_dir listdir label_txt_lines = none := by
  rcases h with h | h | ⟨ls, hls, row, hrow, hmal⟩
  · rw [h]
    rfl
  · cases listdir with
    | none => rfl
    | some fns =>
      rw [h]
      rfl
  · cases listdir with
    | none => rfl
    | some fns =>
      have hnone : derive_label row = none := derive_label_eq_none hmal
      have htrav : traverseOption derive_label (ls.drop 2) = none :=
        traverseOption_eq_none_of_mem hrow hnone
      rw [hls]
      simp only [read_labeled_image_list, Option.bind_eq_bind, Option.some_bind, htrav,
        Option.none_bind]

/-- C8, witnessed at a line with no ".jpg" occurrence. -/
theorem C8_abrupt_failure_witness :
    (pySplit (String.toList "badrow") jpgSep)[1]? = none ∧
    read_labeled_image_list [] (some [])
      (some [[], [], String.toList "badrow"]) = none := by
  refine ⟨by decide, ?_⟩
  exact C8_abrupt_failure [] (some []) (some [[], [], String.toList "badrow"])
    (Or.inr (Or.inr ⟨[[], [], String.toList "badrow"], rfl, String.toList "badrow",
      by decide, Or.inl (by decide)⟩))

/-- C10: `make_tfr` writes exactly `min(len(all_image_paths), len(all_labels))`
records: when the two lists have unequal lengths the excess entries of the
longer one are silently dropped by the `zip` pairing, with no error. -/
theorem C10_zip_truncation {Raw : Type} (imread : PyStr → Raw)
    (resize : Raw → Nat × Nat → Image8)
    (all_image_paths : List PyStr) (all_labels : List (List Int)) :
    (make_tfr imread resize all_image_paths all_labels).length =
      min all_image_paths.length all_labels.length := by
  simp [make_tfr]

/-- C3: for every record whose byte blob holds 128*128*3 unsigned 8-bit values,
the decode step succeeds and produces an image tensor of shape 128×128×3 whose
every element lies in [-1, 1]; each element is `v * (2/255) - 1` for a byte
`v` of the blob, and that map sends 0 to -1 and 255 to 1. -/
theorem C3_decode_shape_range (image_string : List Nat) (label : List Int)
    (h1 : image_string.length = 128 * 128 * 3)
    (h2 : ∀ v ∈ image_string, v ≤ 255)
    (h3 : label.length = 2) :
    ∃ qimg qlbl, convert_parsed_proto_to_input image_string label = some (qimg, qlbl) ∧
      qimg.length = 128 ∧
      (∀ row ∈ qimg, row.length = 128 ∧
        ∀ px ∈ row, px.length = 3 ∧
          ∀ c ∈ px, (-1 ≤ c ∧ c ≤ 1) ∧
            ∃ v ∈ image_string, c = (v : ℚ) * (2 / 255) - 1) ∧
      (0 : ℚ) * (2 / 255) - 1 = -1 ∧ (255 : ℚ) * (2 / 255) - 1 = 1 := by
  have hinner := chunkList_shape (k := 3) (by norm_num) image_string (128 * 128)
    (by rw [h1])
  have houter := chunkList_shape (k := 128) (by norm_num)
    (chunkList 3 image_string) 128 (by rw [hinner.2])
  refine ⟨_, _, convert_parsed_proto_to_input_eq h1 h3, ?_, ?_, by norm_num, by norm_num⟩
  · simp only [map3, List.length_map]
    exact houter.2
  · intro row hrow
    simp only [map3] at hrow
    obtain ⟨row1, hrow1, rfl⟩ := List.mem_map.mp hrow
    obtain ⟨row0, hrow0, rfl⟩ := List.mem_map.mp hrow1
    constructor
    · rw [List.length_map, List.length_map]
      exact houter.1 row0 hrow0
    intro px hpx
    obtain ⟨px1, hpx1, rfl⟩ := List.mem_map.mp hpx
    obtain ⟨px0, hpx0, rfl⟩ := List.mem_map.mp hpx1
    have hpx0_inner : px0 ∈ chunkList 3 image_string := chunkList_subset hrow0 hpx0
    constructor
    · rw [List.length_map, List.length_map]
      exact hinner.1 px0 hpx0_inner
    intro c hc
    obtain ⟨q, hq, rfl⟩ := List.mem_map.mp hc
    obtain ⟨v, hv, rfl⟩ := List.mem_map.mp hq
    have hvmem : v ∈ image_string := chunkList_subset hpx0_inner hv
    have hv255 : (v : ℚ) ≤ 255 := by
      exact_mod_cast Nat.cast_le.mpr (h2 v hvmem)
    have hv0 : (0 : ℚ) ≤ (v : ℚ) := Nat.cast_nonneg v
    refine ⟨⟨by nlinarith, by nlinarith⟩, v, hvmem, rfl⟩

/-- C3, witnessed at the all-zero blob and the label `[1, 0]`. -/
theorem C3_decode_shape_range_witness :
    (List.replicate (128 * 128 * 3) (0 : Nat)).length = 128 * 128 * 3 ∧
    (0 : ℚ) * (2 / 255) - 1 = -1 ∧ (255 : ℚ) * (2 / 255) - 1 = 1 := by
  have h2 : ∀ v ∈ List.replicate (128 * 128 * 3) (0 : Nat), v ≤ 255 := by
    intro v hv
    rw [List.eq_of_mem_replicate hv]
    omega
  have h := C3_decode_shape_range (List.replicate (128 * 128 * 3) 0) [1, 0]
    (List.length_replicate _ _) h2 (by decide)
  obtain ⟨qimg, qlbl, -, -, -, he0, he1⟩ := h
  exact ⟨List.length_replicate _ _, he0, he1⟩

/-- C4: for a non-empty record file of well-formed records and any
`batch_size ≥ 1` and `epochs ≥ 1`, the pipeline succeeds, produces at least
one batch, and every batch it produces (the last included) has leading
dimension exactly `batch_size`: the pre-batch repeat makes the element count
divisible by `batch_size`, so no partial batch exists. -/
theorem C4_full_batches (batch_size epochs : Nat) (records : List Example)
    (shuffleF : List PipeElem → List PipeElem)
    (hwf : ∀ r ∈ records, r.image_raw.length = 128 * 128 * 3 ∧ r.label.length = 2)
    (hne : records ≠ [])
    (hbs : 1 ≤ batch_size) (he : 1 ≤ epochs)
    (hsh : ∀ xs, (shuffleF xs).length = xs.length) :
    ∃ batches, input_pipeline batch_size epochs records shuffleF = some batches ∧
      batches ≠ [] ∧ ∀ b ∈ batches, b.length = batch_size := by
  obtain ⟨conv, hm, hclen⟩ := mapped_elements_isSome hwf
  have hstream : (pre_batch_stream batch_size epochs (shuffleF conv)).length =
      batch_size * (epochs * records.length) := by
    rw [pre_batch_stream, replicateJoin_length, hsh, hclen]
    ring
  obtain ⟨hall, hcount⟩ := chunkList_shape (Nat.lt_of_lt_of_le Nat.zero_lt_one hbs)
    (pre_batch_stream batch_size epochs (shuffleF conv)) (epochs * records.length) hstream
  refine ⟨replicateJoin epochs (chunkList batch_size
      (pre_batch_stream batch_size epochs (shuffleF conv))), ?_, ?_, ?_⟩
  · simp only [input_pipeline, Option.bind_eq_bind, hm, Option.some_bind]
  · have hN : 1 ≤ records.length := by
      rcases records with - | ⟨r, rs⟩
      · exact absurd rfl hne
      · simp
    have hlenpos : 0 < (replicateJoin epochs (chunkList batch_size
        (pre_batch_stream batch_size epochs (shuffleF conv)))).length := by
      rw [replicateJoin_length, hcount]
      exact Nat.mul_pos he (Nat.mul_pos he hN)
    exact List.ne_nil_of_length_pos hlenpos
  · intro b hb
    exact hall b (mem_replicateJoin hb)

/-- C4, witnessed at a one-record file, batch size 2, one epoch, and the
identity shuffle. -/
theorem C4_full_batches_witness :
    ([Example.mk (List.replicate (128 * 128 * 3) 0) [1, 0]] : List Example) ≠ [] ∧
    ∃ batches, input_pipeline 2 1 [Example.mk (List.replicate (128 * 128 * 3) 0) [1, 0]]
        (fun xs => xs) = some batches ∧
      batches ≠ [] ∧ ∀ b ∈ batches, b.length = 2 := by
  have hwf : ∀ r ∈ [Example.mk (List.replicate (128 * 128 * 3) 0) [1, 0]],
      r.image_raw.length = 128 * 128 * 3 ∧ r.label.length = 2 := by
    intro r hr
    rw [List.mem_singleton] at hr
    subst hr
    exact ⟨List.length_replicate _ _, rfl⟩
  exact ⟨List.cons_ne_nil _ _,
    C4_full_batches 2 1 _ _ hwf (List.cons_ne_nil _ _) (by omega) (by omega)
      (fun xs => rfl)⟩

/-- C5: for a record file with `N ≥ 1` well-formed records, the element stream
`input_pipeline` feeds into batching has exactly `N * batch_size * epochs`
elements — at least `batch_size * epochs` — so its length is set by the
caller-chosen repeat counts, not by the true dataset size. -/
theorem C5_stream_length (batch_size epochs : Nat) (records : List Example)
    (shuffleF : List PipeElem → List PipeElem)
    (hwf : ∀ r ∈ records, r.image_raw.length = 128 * 128 * 3 ∧ r.label.length = 2)
    (hne : 1 ≤ records.length)
    (hbs : 1 ≤ batch_size) (he : 1 ≤ epochs)
    (hsh : ∀ xs, (shuffleF xs).length = xs.length) :
    ∃ conv, mapped_elements records = some conv ∧
      (pre_batch_stream batch_size epochs (shuffleF conv)).length =
        records.length * (batch_size * epochs) ∧
      batch_size * epochs ≤ (pre_batch_stream batch_size epochs (shuffleF conv)).length := by
  obtain ⟨conv, hm, hclen⟩ := mapped_elements_isSome hwf
  have hlen : (pre_batch_stream batch_size epochs (shuffleF conv)).length =
      records.length * (batch_size * epochs) := by
    rw [pre_batch_stream, replicateJoin_length, hsh, hclen]
    ring
  refine ⟨conv, hm, hlen, ?_⟩
  rw [hlen]
  calc batch_size * epochs = 1 * (batch_size * epochs) := (Nat.one_mul _).symm
    _ ≤ records.length * (batch_size * epochs) :=
      Nat.mul_le_mul_right _ hne

/-- C5, witnessed at a one-record file, batch size 2, one epoch, and the
identity shuffle. -/
theorem C5_stream_length_witness :
    1 ≤ ([Example.mk (List.replicate (128 * 128 * 3) 0) [1, 0]] : List Example).length ∧
    ∃ conv, mapped_elements [Example.mk (List.replicate (128 * 128 * 3) 0) [1, 0]] =
        some conv ∧
      (pre_batch_stream 2 1 ((fun xs => xs) conv)).length =
        ([Example.mk (List.replicate (128 * 128 * 3) 0) [1, 0]] : List Example).length *
          (2 * 1) ∧
      2 * 1 ≤ (pre_batch_stream 2 1 ((fun xs => xs) conv)).length := by
  have hwf : ∀ r ∈ [Example.mk (List.replicate (128 * 128 * 3) 0) [1, 0]],
      r.image_raw.length = 128 * 128 * 3 ∧ r.label.length = 2 := by
    intro r hr
    rw [List.mem_singleton] at hr
    subst hr
    exact ⟨List.length_replicate _ _, rfl⟩
  exact ⟨Nat.le_refl 1,
    C5_stream_length 2 1 _ (fun xs => xs) hwf (Nat.le_refl 1) (by omega) (by omega)
      (fun xs => rfl)⟩

/-- C6 counterexample: the first invocation of the model-construction function
on an empty variable store succeeds and registers the ten layer-scoped
parameters, but a repeated invocation on the resulting store does not reuse
them: it fails with a variable-already-exists error on `layer1/kernel`. -/
theorem C6_counterexample :
    model_variables [] = Except.ok ["fully_connected/bias", "fully_connected/weights",
      "layer4/bias", "layer4/kernel", "layer3/bias", "layer3/kernel",
      "layer2/bias", "layer2/kernel", "layer1/bias", "layer1/kernel"] ∧
    model_variables ["fully_connected/bias", "fully_connected/weights",
      "layer4/bias", "layer4/kernel", "layer3/bias", "layer3/kernel",
      "layer2/bias", "layer2/kernel", "layer1/bias", "layer1/kernel"] =
      Except.error "layer1/kernel" := by
  constructor
  · rfl
  · rfl

/-- C6 (amended): each convolution layer's parameters are scoped by its layer
name, but a repeated invocation of the model-construction function does not
reuse the parameters created by the first invocation: with `tf.get_variable`'s
default (no reuse), it raises a variable-already-exists error on the first
layer's kernel. -/
theorem C6_no_reuse (store store' : VarStore)
    (h : model_variables store = Except.ok store') :
    model_variables store' = Except.error "layer1/kernel" := by
  have hmem := model_variables_mem h
  have hc : conv_variables "layer1" store' =
      Except.error ("layer1" ++ "/" ++ "kernel") := by
    rw [conv_variables, get_variable_error_of_mem hmem, exceptBind_error]
  rw [model_variables, hc, exceptBind_error]
  rfl

/-- C6, witnessed at the empty variable store. -/
theorem C6_no_reuse_witness :
    model_variables [] = Except.ok ["fully_connected/bias", "fully_connected/weights",
      "layer4/bias", "layer4/kernel", "layer3/bias", "layer3/kernel",
      "layer2/bias", "layer2/kernel", "layer1/bias", "layer1/kernel"] ∧
    model_variables ["fully_connected/bias", "fully_connected/weights",
      "layer4/bias", "layer4/kernel", "layer3/bias", "layer3/kernel",
      "layer2/bias", "layer2/kernel", "layer1/bias", "layer1/kernel"] =
      Except.error "layer1/kernel" :=
  ⟨rfl, C6_no_reuse [] _ rfl⟩

/-- C7: when the force-overwrite flag is false and the required record file
(or, in the split notebook, both record files) already exists, the writer cell
performs no label extraction and no write and leaves the file system
unchanged; and in both notebooks the write path runs exactly when the flag is
true or a required record file is missing. -/
theorem C7_overwrite_guard {Raw : Type} (write_tfr : Bool) (fs fs2 fs3 fs4 : FS)
    (img_dir : PyStr) (listdir : Option (List PyStr))
    (label_txt_lines : Option (List PyStr))
    (imread : PyStr → Raw) (resize : Raw → Nat × Nat → Image8)
    (splitF : List PyStr → List (List Int) →
      List PyStr × List PyStr × List (List Int) × List (List Int))
    (h1 : isfile fs TFR_FILE = true)
    (h2 : isfile fs2 TFR_TRAIN = true) (h3 : isfile fs2 TFR_TEST = true) :
    write_guard_cell false fs img_dir listdir label_txt_lines imread resize =
      (false, some fs) ∧
    ((write_guard_cell write_tfr fs3 img_dir listdir label_txt_lines imread resize).1 =
        true ↔ (write_tfr = true ∨ isfile fs3 TFR_FILE = false)) ∧
    write_guard_cell_split false fs2 img_dir listdir label_txt_lines imread resize splitF =
      (false, some fs2) ∧
    ((write_guard_cell_split write_tfr fs4 img_dir listdir label_txt_lines imread resize
        splitF).1 = true ↔
      (write_tfr = true ∨ isfile fs4 TFR_TRAIN = false ∨ isfile fs4 TFR_TEST = false)) := by
  refine ⟨?_, ?_, ?_, ?_⟩
  · rw [write_guard_cell]
    simp [h1]
  · cases write_tfr <;> cases hf : isfile fs3 TFR_FILE <;>
      simp [write_guard_cell, hf]
  · rw [write_guard_cell_split]
    simp [h2, h3]
  · cases write_tfr <;> cases ha : isfile fs4 TFR_TRAIN <;>
      cases hb : isfile fs4 TFR_TEST <;>
      simp [write_guard_cell_split, ha, hb]

/-- C7, witnessed at a file system where every record file exists. -/
theorem C7_overwrite_guard_witness :
    isfile (fun _ => some ([] : List Example)) TFR_FILE = true ∧
    write_guard_cell false (fun _ => some ([] : List Example)) [] none none
      (fun _ => ()) (fun _ _ => ([] : Image8)) =
      (false, some (fun _ => some ([] : List Example))) :=
  ⟨rfl,
    (C7_overwrite_guard false (fun _ => some []) (fun _ => some [])
      (fun _ => some []) (fun _ => some []) [] none none
      (fun _ => ()) (fun _ _ => []) (fun a b => (a, a, b, b)) rfl rfl rfl).1⟩

/-- C9: in the split notebook's training loop, step `i` runs the optimizer
update exactly when `i % 500 ≠ 0`; when `i % 500 = 0` the step instead runs
the evaluation-only fetches with the test feed dictionary (keep probability 1,
data source switched to the held-out test pipeline by `choose_data`) and
performs no parameter update; and the loss is printed exactly on steps with
`i % 100 = 0`. -/
theorem C9_schedule (iterations epoch : Nat) (h : epoch < iterations + 1) :
    (training_loop iterations)[epoch]? = some (loop_body epoch) ∧
    ((loop_body epoch).ran_train_op = true ↔ ¬ epoch % 500 = 0) ∧
    (epoch % 500 = 0 →
      (loop_body epoch).ran_eval_only = true ∧
      (loop_body epoch).ran_train_op = false ∧
      (loop_body epoch).feed = test_dict ∧
      (loop_body epoch).feed.keep_prob = 1 ∧
      choose_data (loop_body epoch).feed.is_training = DataSource.test) ∧
    ((loop_body epoch).printed = true ↔ epoch % 100 = 0) := by
  refine ⟨?_, ?_, ?_, ?_⟩
  · rw [training_loop, List.getElem?_map, List.getElem?_range h]
    rfl
  · by_cases h5 : epoch % 500 = 0 <;> simp [loop_body, h5]
  · intro h5
    simp [loop_body, h5, test_dict, choose_data]
  · by_cases h5 : epoch % 500 = 0 <;> by_cases h100 : epoch % 100 = 0 <;>
      simp [loop_body, h5, h100]

/-- C9, witnessed at step 500 of a 1000-step loop. -/
theorem C9_schedule_witness :
    (500 : Nat) < 1000 + 1 ∧
    ((training_loop 1000)[500]? = some (loop_body 500) ∧
    ((loop_body 500).ran_train_op = true ↔ ¬ 500 % 500 = 0) ∧
    (500 % 500 = 0 →
      (loop_body 500).ran_eval_only = true ∧
      (loop_body 500).ran_train_op = false ∧
      (loop_body 500).feed = test_dict ∧
      (loop_body 500).feed.keep_prob = 1 ∧
      choose_data (loop_body 500).feed.is_training = DataSource.test) ∧
    ((loop_body 500).printed = true ↔ 500 % 100 = 0)) :=
  ⟨by omega, C9_schedule 1000 500 (by omega)⟩
